import Mathlib

/-
Shallow embedding of the FMAPI file-storage service (src/files/router.py,
src/auth/router.py, src/models/file.py, src/models/user.py,
src/config/settings.py) and proofs about its reconciliation, listing,
download, upload, registration, sync and archive operations.

Modelling conventions:
- Python byte strings are `List Nat` (one Nat per byte, values < 256).
- Timestamps (datetime.utcnow and file mtimes) are `Int` seconds.
- The Content Store (the STORAGE_DIR tree) is a finite association list
  `List StorEntry` keyed by the path string relative to the storage root.
- The files table of the Metadata Catalog is a `List FileRecord` in row
  insertion order; SQLAlchemy `.first()` becomes `List.find?`.
- Fallible endpoints return an inductive result with an `err status detail`
  constructor mirroring `HTTPException(status_code, detail)`.
-/

/-- UTF-8 encoding of one Unicode code point, as Python str.encode produces. -/
def utf8Bytes (c : Nat) : List Nat :=
  if c < 0x80 then [c]
  else if c < 0x800 then [0xC0 ||| (c >>> 6), 0x80 ||| (c &&& 0x3F)]
  else if c < 0x10000 then
    [0xE0 ||| (c >>> 12), 0x80 ||| ((c >>> 6) &&& 0x3F), 0x80 ||| (c &&& 0x3F)]
  else
    [0xF0 ||| (c >>> 18), 0x80 ||| ((c >>> 12) &&& 0x3F),
     0x80 ||| ((c >>> 6) &&& 0x3F), 0x80 ||| (c &&& 0x3F)]

/-- Bytes of a string under UTF-8, as the Python `path.encode()`. -/
def strBytes (s : String) : List Nat :=
  s.data.flatMap (fun ch => utf8Bytes ch.toNat)

/-- The 64 per-round additive constants of MD5 (RFC 1321). -/
def md5K : List Nat :=
  [0xd76aa478, 0xe8c7b756, 0x242070db, 0xc1bdceee,
   0xf57c0faf, 0x4787c62a, 0xa8304613, 0xfd469501,
   0x698098d8, 0x8b44f7af, 0xffff5bb1, 0x895cd7be,
   0x6b901122, 0xfd987193, 0xa679438e, 0x49b40821,
   0xf61e2562, 0xc040b340, 0x265e5a51, 0xe9b6c7aa,
   0xd62f105d, 0x02441453, 0xd8a1e681, 0xe7d3fbc8,
   0x21e1cde6, 0xc33707d6, 0xf4d50d87, 0x455a14ed,
   0xa9e3e905, 0xfcefa3f8, 0x676f02d9, 0x8d2a4c8a,
   0xfffa3942, 0x8771f681, 0x6d9d6122, 0xfde5380c,
   0xa4beea44, 0x4bdecfa9, 0xf6bb4b60, 0xbebfbc70,
   0x289b7ec6, 0xeaa127fa, 0xd4ef3085, 0x04881d05,
   0xd9d4d039, 0xe6db99e5, 0x1fa27cf8, 0xc4ac5665,
   0xf4292244, 0x432aff97, 0xab9423a7, 0xfc93a039,
   0x655b59c3, 0x8f0ccc92, 0xffeff47d, 0x85845dd1,
   0x6fa87e4f, 0xfe2ce6e0, 0xa3014314, 0x4e0811a1,
   0xf7537e82, 0xbd3af235, 0x2ad7d2bb, 0xeb86d391]

/-- The 64 per-round left-rotation amounts of MD5 (RFC 1321). -/
def md5S : List Nat :=
  [7, 12, 17, 22, 7, 12, 17, 22, 7, 12, 17, 22, 7, 12, 17, 22,
   5,  9, 14, 20, 5,  9, 14, 20, 5,  9, 14, 20, 5,  9, 14, 20,
   4, 11, 16, 23, 4, 11, 16, 23, 4, 11, 16, 23, 4, 11, 16, 23,
   6, 10, 15, 21, 6, 10, 15, 21, 6, 10, 15, 21, 6, 10, 15, 21]

/-- Left rotation of a 32-bit word. -/
def rotl32 (x n : Nat) : Nat :=
  ((x <<< n) ||| (x >>> (32 - n))) &&& 0xFFFFFFFF

/-- Round function of MD5: F, G, H or I depending on the round index. -/
def md5F (i b c d : Nat) : Nat :=
  if i < 16 then (b &&& c) ||| ((b ^^^ 0xFFFFFFFF) &&& d)
  else if i < 32 then (d &&& b) ||| ((d ^^^ 0xFFFFFFFF) &&& c)
  else if i < 48 then b ^^^ c ^^^ d
  else c ^^^ (b ||| (d ^^^ 0xFFFFFFFF))

/-- Message-word index used by round `i` of MD5. -/
def md5G (i : Nat) : Nat :=
  if i < 16 then i
  else if i < 32 then (5 * i + 1) % 16
  else if i < 48 then (3 * i + 5) % 16
  else (7 * i) % 16

/-- Little-endian 32-bit words of a byte list. -/
def leWords : List Nat → List Nat
  | b0 :: b1 :: b2 :: b3 :: rest =>
    (b0 + (b1 <<< 8) + (b2 <<< 16) + (b3 <<< 24)) :: leWords rest
  | _ => []

/-- One MD5 round: rotates the state quadruple. -/
def md5Round (M : List Nat) (st : Nat × Nat × Nat × Nat) (i : Nat) :
    Nat × Nat × Nat × Nat :=
  let (a, b, c, d) := st
  let f := (md5F i b c d + a + md5K.getD i 0 + M.getD (md5G i) 0) % 4294967296
  (d, (b + rotl32 f (md5S.getD i 0)) % 4294967296, b, c)

/-- Compression of a single 64-byte chunk into the MD5 state. -/
def md5Block (chunk : List Nat) (st : Nat × Nat × Nat × Nat) :
    Nat × Nat × Nat × Nat :=
  let M := leWords chunk
  let (a0, b0, c0, d0) := st
  let (a, b, c, d) := (List.range 64).foldl (md5Round M) st
  ((a0 + a) % 4294967296, (b0 + b) % 4294967296,
   (c0 + c) % 4294967296, (d0 + d) % 4294967296)

/-- Folds `md5Block` over successive 64-byte chunks. The first argument is
fuel bounding the number of chunks (structural recursion so that concrete
digests reduce inside the kernel); the byte count itself is always enough. -/
def md5BlocksF : Nat → List Nat → Nat × Nat × Nat × Nat → Nat × Nat × Nat × Nat
  | 0, _, st => st
  | _, [], st => st
  | fuel + 1, b :: rest, st =>
    md5BlocksF fuel (rest.drop 63) (md5Block ((b :: rest).take 64) st)

/-- MD5 padding: a 0x80 byte, zeros to 56 mod 64, then the bit length as a
64-bit little-endian quantity. -/
def md5Pad (msg : List Nat) : List Nat :=
  let r := (msg.length + 1) % 64
  let zeros := (56 + 64 - r) % 64
  let bitLen := (msg.length * 8) % 18446744073709551616
  msg ++ [0x80] ++ List.replicate zeros 0 ++
    ((List.range 8).map (fun i => (bitLen >>> (8 * i)) &&& 255))

/-- Little-endian byte serialization of a 32-bit word. -/
def wordLEBytes (w : Nat) : List Nat :=
  [w &&& 255, (w >>> 8) &&& 255, (w >>> 16) &&& 255, (w >>> 24) &&& 255]

/-- MD5 digest (16 bytes) of a byte list, per RFC 1321; the algorithm behind
the Python `hashlib.md5`. -/
def md5Bytes (msg : List Nat) : List Nat :=
  let padded := md5Pad msg
  let (a, b, c, d) :=
    md5BlocksF padded.length padded (0x67452301, 0xefcdab89, 0x98badcfe, 0x10325476)
  wordLEBytes a ++ wordLEBytes b ++ wordLEBytes c ++ wordLEBytes d

/-- Lower-case hexadecimal digit. -/
def hexChar (n : Nat) : Char :=
  if n < 10 then Char.ofNat (48 + n) else Char.ofNat (87 + n)

/-- Two lower-case hex characters of one byte. -/
def byteHexChars (b : Nat) : List Char :=
  [hexChar (b / 16), hexChar (b % 16)]

/-- Lower-case hex digest of a byte list, as the Python `.hexdigest()`. -/
def bytesHex (bs : List Nat) : String :=
  String.mk (bs.flatMap byteHexChars)

/-- the Python `hashlib.md5(s.encode()).hexdigest()`. -/
def md5Hex (s : String) : String :=
  bytesHex (md5Bytes (strBytes s))

/-- Python slicing `s[:n]` over code points. -/
def strTake (s : String) (n : Nat) : String :=
  String.mk (s.data.take n)

/-- Python slicing `s[n:]` over code points. -/
def strDrop (s : String) (n : Nat) : String :=
  String.mk (s.data.drop n)

/-- the Python `s.startswith(pre)` over code points. -/
def strStartsWith (s pre : String) : Bool :=
  pre.data.isPrefixOf s.data

/-- Characters stripped by the Python `int(str)` whitespace trimming (the ASCII
subset, which covers every identifier arising here). -/
def isPySpace (c : Char) : Bool :=
  c == ' ' || c == '\t' || c == '\n' || c == '\r' || c == '\x0b' || c == '\x0c'

/-- the Python `s.strip()` over a character list. -/
def pyStrip (cs : List Char) : List Char :=
  ((cs.dropWhile isPySpace).reverse.dropWhile isPySpace).reverse

/-- ASCII decimal digit test. -/
def isAsciiDigit (c : Char) : Bool :=
  48 ≤ c.toNat && c.toNat ≤ 57

/-- Value of a list of decimal digit characters. -/
def digitsToNat (cs : List Char) : Nat :=
  cs.foldl (fun a c => 10 * a + (c.toNat - 48)) 0

/-- Decimal integer parse after stripping, one optional sign then digits. -/
def parsePyIntCore : List Char → Option Int
  | [] => none
  | '+' :: rest =>
    if !rest.isEmpty && rest.all isAsciiDigit then some (Int.ofNat (digitsToNat rest))
    else none
  | '-' :: rest =>
    if !rest.isEmpty && rest.all isAsciiDigit then some (-(Int.ofNat (digitsToNat rest)))
    else none
  | cs =>
    if cs.all isAsciiDigit then some (Int.ofNat (digitsToNat cs)) else none

/-- the Python `int(s)` on the decimal forms used for catalog ids: `some n` when
the string parses, `none` when `int()` raises ValueError. (Underscore digit
grouping and non-ASCII digits are not modelled; no identifier here uses them.) -/
def parsePyInt (s : String) : Option Int :=
  parsePyIntCore (pyStrip s.data)

/-- Final component of a slash-separated path: the accumulator holds the
current segment reversed and is reset at every slash. -/
def basenameGo : List Char → List Char → List Char
  | [], acc => acc.reverse
  | c :: rest, acc =>
    if c == '/' then basenameGo rest [] else basenameGo rest (c :: acc)

/-- the Python `pathlib.PurePath(p).name` for the relative paths used here. -/
def basename (p : String) : String :=
  String.mk (basenameGo p.data [])

/-- Index of the last dot in a character list, if any. -/
def lastDotIdx : List Char → Option Nat
  | [] => none
  | c :: rest =>
    match lastDotIdx rest with
    | some i => some (i + 1)
    | none => if c == '.' then some 0 else none

/-- the Python `pathlib.PurePath(p).suffix`: the extension of the final path
component, empty when the last dot is leading or trailing. -/
def pathSuffix (p : String) : String :=
  let cs := (basename p).data
  match lastDotIdx cs with
  | some i => if 0 < i && i + 1 < cs.length then String.mk (cs.drop i) else ""
  | none => ""

/-
Data model: src/models/user.py, src/models/file.py. Authentication-only
fields (hashed_password, JWT material) are not consulted by any operation
embedded here and are omitted; `created_at` of FileModel likewise.
-/

/-- Row of the users table (src/models/user.py). `last_active` is the
nullable DateTime column added by migration bd0ce0cc1130. -/
structure User where
  username : String
  role : String
  last_active : Option Int
deriving DecidableEq

/-- Row of the files table (src/models/file.py). `hash` is the nullable MD5
column; `id` is the autoincrement primary key. -/
structure FileRecord where
  id : Nat
  filename : String
  path : String
  size : Nat
  modified : Int
  hash : Option String
  owner_id : Nat
deriving DecidableEq

/-- One file of the Content Store: path relative to STORAGE_DIR, content
bytes, and stat mtime. -/
structure StorEntry where
  path : String
  content : List Nat
  mtime : Int
deriving DecidableEq

/-- Declared constraints of one SQLAlchemy Column. Flags not passed to
`Column(...)` in the source default to false. -/
structure ColumnSpec where
  primary_key : Bool := false
  unique : Bool := false
  indexed : Bool := false
deriving DecidableEq

/-- Column declaration `path = Column(String)` of FileModel
(src/models/file.py line 11): no uniqueness constraint is declared. -/
def fileModelPathColumn : ColumnSpec := {}

/-- Column declaration `id = Column(Integer, primary_key=True, index=True)`
of FileModel (src/models/file.py line 9). -/
def fileModelIdColumn : ColumnSpec := { primary_key := true, indexed := true }

/-- Column declaration `username = Column(String, unique=True, index=True)`
of User (src/models/user.py): this one does declare uniqueness. -/
def userUsernameColumn : ColumnSpec := { unique := true, indexed := true }

/-- ADMIN_ACTIVITY_TIMEOUT = timedelta(minutes=5) (src/files/router.py
line 25), in seconds. -/
def ADMIN_ACTIVITY_TIMEOUT : Int := 5 * 60

/-- MAX_FILE_SIZE = 100 * 1024 * 1024 (src/files/router.py line 26). -/
def MAX_FILE_SIZE : Nat := 100 * 1024 * 1024

/-- ADMIN_SECRET_KEY default from src/config/settings.py. -/
def ADMIN_SECRET_KEY : String := "qwerty"

/-- Lookup of a Content Store path: existence check / open of
STORAGE_DIR / p. -/
def lookupStorage (storage : List StorEntry) (p : String) : Option StorEntry :=
  storage.find? (fun e => e.path == p)

/-- Write of content bytes to STORAGE_DIR / p (open(file_path, "wb")):
overwrites the entry in place or creates it; the mtime becomes the wall
clock `now`. -/
def storageWrite (storage : List StorEntry) (p : String) (content : List Nat)
    (now : Int) : List StorEntry :=
  if storage.any (fun e => e.path == p) then
    storage.map (fun e => if e.path == p then ⟨p, content, now⟩ else e)
  else storage ++ [⟨p, content, now⟩]

/-- hash_file (src/files/router.py lines 32-38): MD5 hex digest of the file
content. -/
def hash_file (content : List Nat) : String :=
  bytesHex (md5Bytes content)

/-- generate_file_id (src/files/router.py lines 28-30):
`f"temp_{hashlib.md5(path.encode()).hexdigest()[:8]}"`. -/
def generate_file_id (path : String) : String :=
  "temp_" ++ strTake (md5Hex path) 8

/-- is_admin_active (src/files/router.py lines 40-47): true when some user
row has role "admin" and last_active >= utcnow() - ADMIN_ACTIVITY_TIMEOUT.
A NULL last_active fails the SQL comparison, hence the `none` branch. -/
def is_admin_active (users : List User) (now : Int) : Bool :=
  users.any (fun u =>
    u.role == "admin" &&
      match u.last_active with
      | some t => decide (now - ADMIN_ACTIVITY_TIMEOUT ≤ t)
      | none => false)

/-- Result of the auth register endpoint. -/
inductive RegisterResult where
  | ok (users : List User)
  | err (status : Nat) (detail : String)
deriving DecidableEq

/-- get_user (src/auth/router.py lines 33-36). -/
def get_user (users : List User) (username : String) : Option User :=
  users.find? (fun u => u.username == username)

/-- register (src/auth/router.py lines 73-114): rejects taken usernames and
invalid roles, requires ADMIN_SECRET_KEY for role "admin", and creates the
user with `last_active = datetime.utcnow() if role == "admin" else None`.
Password hashing is authentication glue and is not modelled. -/
def register (users : List User) (username role admin_secret : String)
    (now : Int) : RegisterResult :=
  match get_user users username with
  | some _ => .err 400 "Имя пользователя уже занято"
  | none =>
    if !(role == "user" || role == "admin") then
      .err 400 "Недопустимая роль пользователя"
    else if role == "admin" && admin_secret != ADMIN_SECRET_KEY then
      .err 403 "Неверный секретный ключ администратора"
    else
      .ok (users ++
        [{ username := username, role := role,
           last_active := if role == "admin" then some now else none }])

/-- Identity carried by one listing item: the integer DB id for catalog rows,
the temp string for storage-only rows. -/
inductive ViewId where
  | dbId (n : Nat)
  | tempId (s : String)
deriving DecidableEq

/-- One element of the `all_files` list built by list_files
(src/files/router.py lines 63-97): the dict with id/name/path/size/modified/
source, plus owner_id for database-sourced entries. -/
structure FileView where
  id : ViewId
  name : String
  path : String
  size : Nat
  modified : Int
  owner_id : Option Nat
  source : String
deriving DecidableEq

/-- Storage-sourced listing entry (src/files/router.py lines 70-78). -/
def storageView (e : StorEntry) : FileView :=
  { id := .tempId (generate_file_id e.path), name := basename e.path,
    path := e.path, size := e.content.length, modified := e.mtime,
    owner_id := none, source := "storage" }

/-- Database-sourced listing entry (src/files/router.py lines 85-97): rows
whose backing file is missing from storage are skipped; size and mtime come
from the live stat. -/
def dbView (storage : List StorEntry) (r : FileRecord) : Option FileView :=
  match lookupStorage storage r.path with
  | none => none
  | some e =>
    some { id := .dbId r.id, name := r.filename, path := r.path,
           size := e.content.length, modified := e.mtime,
           owner_id := some r.owner_id, source := "database" }

/-- The `all_files` list of list_files: storage entries only while the admin
gate is active, then all database entries with existing backing files. -/
def all_files (storage : List StorEntry) (catalog : List FileRecord)
    (adminActive : Bool) : List FileView :=
  (if adminActive then storage.map storageView else []) ++
    catalog.filterMap (dbView storage)

/-- One dict assignment `unique_files[key] = file`: overwrites in place or
appends, preserving Python dict insertion order. -/
def dictInsert (d : List (String × FileView)) (k : String) (v : FileView) :
    List (String × FileView) :=
  if d.any (fun e => e.1 == k) then
    d.map (fun e => if e.1 == k then (k, v) else e)
  else d ++ [(k, v)]

/-- One iteration of the dedup loop (src/files/router.py lines 100-104):
`if key not in unique_files or file["source"] == "database"`. -/
def mergeStep (d : List (String × FileView)) (f : FileView) :
    List (String × FileView) :=
  if !(d.any (fun e => e.1 == f.path)) || f.source == "database" then
    dictInsert d f.path f
  else d

/-- The `unique_files` dict of list_files (src/files/router.py lines 99-104),
as an insertion-ordered association list keyed by relative path. -/
def unique_files (views : List FileView) : List (String × FileView) :=
  views.foldl mergeStep []

/-- Stable insertion into a modified-descending list: a later element goes
after earlier elements with an equal key, as the Python stable sort does. -/
def insertByModified (f : FileView) : List FileView → List FileView
  | [] => [f]
  | g :: gs =>
    if g.modified < f.modified then f :: g :: gs else g :: insertByModified f gs

/-- `sorted(..., key=modified, reverse=True)` of list_files line 107. -/
def sortByModifiedDesc (l : List FileView) : List FileView :=
  l.foldl (fun acc f => insertByModified f acc) []

/-- Response of list_files (src/files/router.py lines 113-122): paginated
items, total distinct-path count, has_more flag and the admin_active flag. -/
structure ListResult where
  items : List FileView
  total : Nat
  has_more : Bool
  admin_active : Bool
deriving DecidableEq

/-- list_files (src/files/router.py lines 49-122). -/
def list_files (storage : List StorEntry) (catalog : List FileRecord)
    (users : List User) (now : Int) (skip limit : Nat) : ListResult :=
  let admin_active := is_admin_active users now
  let merged := unique_files (all_files storage catalog admin_active)
  let sorted_files := sortByModifiedDesc (merged.map (fun e => e.2))
  { items := (sorted_files.drop skip).take limit,
    total := merged.length,
    has_more := skip + limit < merged.length,
    admin_active := admin_active }

/-- Result of the download endpoint: a FileResponse serving the file at the
given storage-relative path under the given display filename, or an HTTP
error. -/
inductive DlResult where
  | file (path : String) (filename : String) (content : List Nat)
  | err (status : Nat) (detail : String)
deriving DecidableEq

/-- download_file (src/files/router.py lines 183-237). An id starting with
"temp_" has the rest of the id used directly as a storage-relative path
(line 193: `STORAGE_DIR / file_id[5:]`); otherwise the id is parsed with
`int()` (400 on failure), the row fetched by integer id (404 when absent),
and the backing file checked (distinct 404 detail when missing). -/
def download_file (storage : List StorEntry) (catalog : List FileRecord)
    (file_id : String) : DlResult :=
  if strStartsWith file_id "temp_" then
    let rel := strDrop file_id 5
    match lookupStorage storage rel with
    | none => .err 404 "File not found in storage"
    | some e => .file rel (basename rel) e.content
  else
    match parsePyInt file_id with
    | none =>
      .err 400 "Invalid file ID format. Must be integer or start with \x27temp_\x27"
    | some n =>
      match catalog.find? (fun r => (r.id : Int) == n) with
      | none => .err 404 "File not found in database"
      | some r =>
        match lookupStorage storage r.path with
        | none => .err 404 "File exists in database but missing in storage"
        | some e => .file r.path r.filename e.content

/-- Response payload of the upload endpoint. -/
inductive UpResp where
  | ok (id : Nat) (filename : String) (path : String) (size : Nat)
  | err (status : Nat) (detail : String)
deriving DecidableEq

/-- State and response after an upload. -/
structure UploadOut where
  storage : List StorEntry
  catalog : List FileRecord
  resp : UpResp
deriving DecidableEq

/-- upload_file (src/files/router.py lines 128-181). `file.size` of the
multipart upload equals the byte length of the content; the size check
happens before any write, so an oversized upload changes nothing. The
detail string renders `MAX_FILE_SIZE/1024/1024` as the Python float 100.0.
`uuidName` stands for the `uuid.uuid4()` draw; the stored path is that name
plus the original extension. -/
def upload_file (storage : List StorEntry) (catalog : List FileRecord)
    (filename : String) (content : List Nat) (uuidName : String)
    (ownerId nextId : Nat) (now : Int) : UploadOut :=
  if content.length > MAX_FILE_SIZE then
    ⟨storage, catalog, .err 413 "File too large. Max size: 100.0MB"⟩
  else
    let unique_name := uuidName ++ pathSuffix filename
    let storage' := storageWrite storage unique_name content now
    ⟨storage',
     catalog ++ [{ id := nextId, filename := filename, path := unique_name,
                   size := content.length, modified := now,
                   hash := some (hash_file content), owner_id := ownerId }],
     .ok nextId filename unique_name content.length⟩

/-- Response payload of the register endpoint. -/
inductive RegFileResp where
  | ok (id : Nat) (filename : String) (path : String)
  | err (status : Nat) (detail : String)
deriving DecidableEq

/-- Catalog state and response after register. -/
structure RegisterFileOut where
  catalog : List FileRecord
  resp : RegFileResp
deriving DecidableEq

/-- register_file (src/files/router.py lines 275-319): 404 when the path has
no storage file, 400 "File already registered" when a row with that path
exists, else inserts a row with live size/mtime/hash. -/
def register_file (storage : List StorEntry) (catalog : List FileRecord)
    (path : String) (filename : Option String) (ownerId nextId : Nat) :
    RegisterFileOut :=
  match lookupStorage storage path with
  | none => ⟨catalog, .err 404 "File not found in storage"⟩
  | some e =>
    match catalog.find? (fun r => r.path == path) with
    | some _ => ⟨catalog, .err 400 "File already registered"⟩
    | none =>
      let fname := filename.getD (basename path)
      ⟨catalog ++ [{ id := nextId, filename := fname, path := path,
                     size := e.content.length, modified := e.mtime,
                     hash := some (hash_file e.content), owner_id := ownerId }],
       .ok nextId fname path⟩

/-- Rows inserted by register_all for the unregistered entries, with
autoincrement ids assigned in scan order. -/
def mkNewRecs (ownerId : Nat) : Nat → List StorEntry → List FileRecord
  | _, [] => []
  | nid, e :: rest =>
    { id := nid, filename := basename e.path, path := e.path,
      size := e.content.length, modified := e.mtime,
      hash := some (hash_file e.content), owner_id := ownerId } ::
      mkNewRecs ownerId (nid + 1) rest

/-- register_all_files (src/files/router.py lines 321-361): computes the set
of registered paths, inserts a row for every storage file not in it, and
reports the relative paths registered. Returns (new catalog, new paths). -/
def register_all_files (storage : List StorEntry) (catalog : List FileRecord)
    (ownerId nextId : Nat) : List FileRecord × List String :=
  let registered := catalog.map (fun r => r.path)
  let newEntries := storage.filter (fun e => !(registered.contains e.path))
  (catalog ++ mkNewRecs ownerId nextId newEntries,
   newEntries.map (fun e => e.path))

/-- Status string of the sync endpoint. -/
inductive SyncStatus where
  | added
  | updated
  | skipped
deriving DecidableEq

/-- State and status after sync_file. -/
structure SyncOut where
  storage : List StorEntry
  catalog : List FileRecord
  status : SyncStatus
deriving DecidableEq

/-- sync_file (src/files/router.py lines 363-423): three-way compare by path.
No row: write the blob and insert (added). Row with differing hash or size:
overwrite the blob and update size/hash/modified (updated). Row with
matching hash and size: no writes at all (skipped). -/
def sync_file (storage : List StorEntry) (catalog : List FileRecord)
    (filename path hash : String) (size : Nat) (modified : Int)
    (content : List Nat) (ownerId nextId : Nat) (now : Int) : SyncOut :=
  match catalog.find? (fun r => r.path == path) with
  | some ex =>
    if ex.hash != some hash || ex.size != size then
      ⟨storageWrite storage path content now,
       catalog.map (fun r =>
         if r.id == ex.id then
           { r with size := size, hash := some hash, modified := modified }
         else r),
       .updated⟩
    else ⟨storage, catalog, .skipped⟩
  | none =>
    ⟨storageWrite storage path content now,
     catalog ++ [{ id := nextId, filename := filename, path := path,
                   size := size, modified := modified, hash := some hash,
                   owner_id := ownerId }],
     .added⟩

/-- Result of the multi-download endpoint: the ZIP entries written
(arcname, content) in order, or an HTTP error. -/
inductive ZipOutcome where
  | archive (entries : List (String × List Nat))
  | err (status : Nat) (detail : String)
deriving DecidableEq

/-- Loop body of download_multiple_files (src/files/router.py lines
249-259). A "temp_" id is resolved like the download temp branch and skipped
silently when the file is absent. Any other id reaches
`await db.get(FileModel, file_id)` with the raw string, but FileModel.id is
an Integer column and the configured engine is postgresql+asyncpg
(src/config/settings.py DATABASE_URL): asyncpg rejects a str bind for an
integer parameter, the call raises, and the generic except clause of the handler turns
the whole request into 500 "Archive creation failed" (lines 271-273). The
record branch of lines 255-259 is therefore unreachable as configured. -/
def downloadMultipleGo (storage : List StorEntry)
    (acc : List (String × List Nat)) : List String → ZipOutcome
  | [] => .archive acc
  | fid :: rest =>
    if strStartsWith fid "temp_" then
      let rel := strDrop fid 5
      match lookupStorage storage rel with
      | some e => downloadMultipleGo storage (acc ++ [(basename rel, e.content)]) rest
      | none => downloadMultipleGo storage acc rest
    else .err 500 "Archive creation failed"

/-- download_multiple_files (src/files/router.py lines 239-273). -/
def download_multiple_files (storage : List StorEntry)
    (catalog : List FileRecord) (file_ids : List String) : ZipOutcome :=
  downloadMultipleGo storage [] file_ids

/-
Helper lemmas shared by the claim theorems.
-/

/-- MD5 self-test on the RFC 1321 empty-string vector. -/
theorem md5Hex_rfc_vector_empty :
    md5Hex "" = "d41d8cd98f00b204e9800998ecf8427e" := by decide

/-- MD5 self-test on the RFC 1321 abc vector. -/
theorem md5Hex_rfc_vector_abc :
    md5Hex "abc" = "900150983cd24fb0d6963f7d28e17f72" := by decide

/-- A list is a code-point prefix of itself followed by anything. -/
theorem isPrefixOf_append_self (l t : List Char) : l.isPrefixOf (l ++ t) = true := by
  induction l with
  | nil => simp [List.isPrefixOf]
  | cons a as ih => simp [List.isPrefixOf, ih]

/-- `startswith` holds on an identifier built by prepending the tested text. -/
theorem strStartsWith_append_self (p s : String) :
    strStartsWith (p ++ s) p = true := by
  unfold strStartsWith
  rw [String.data_append]
  exact isPrefixOf_append_self p.data s.data

/-- Slicing `[5:]` recovers the remainder after a five-character head. -/
theorem strDrop_temp (s : String) : strDrop ("temp_" ++ s) 5 = s := by
  unfold strDrop
  rw [String.data_append]
  have h : ("temp_".data).length = 5 := rfl
  rw [← h, List.drop_left]

/-- the Python `key in dict`, as the source writes it with `List.any`, matches
membership among the first components. -/
theorem anyKey_iff (d : List (String × FileView)) (p : String) :
    d.any (fun e => e.1 == p) = true ↔ p ∈ d.map Prod.fst := by
  rw [List.any_eq_true]
  constructor
  · rintro ⟨e, he, hbeq⟩
    exact List.mem_map.mpr ⟨e, he, eq_of_beq hbeq⟩
  · rintro hm
    obtain ⟨e, he, hfst⟩ := List.mem_map.mp hm
    exact ⟨e, he, by simp [hfst]⟩

/-- `find?` over the path column misses exactly when the path registers in no
row. -/
theorem find?_path_eq_none (catalog : List FileRecord) (p : String) :
    catalog.find? (fun r => r.path == p) = none ↔
      p ∉ catalog.map (fun r => r.path) := by
  rw [List.find?_eq_none]
  constructor
  · intro h hm
    obtain ⟨r, hr, hrp⟩ := List.mem_map.mp hm
    exact h r hr (by rw [hrp]; exact beq_self_eq_true p)
  · intro h r hr hbeq
    exact h (List.mem_map.mpr ⟨r, hr, eq_of_beq hbeq⟩)

/-- Rows made by register_all carry exactly the paths of the entries they
were made from. -/
theorem mkNewRecs_map_path (uid : Nat) :
    ∀ (nid : Nat) (es : List StorEntry),
      (mkNewRecs uid nid es).map (fun r => r.path) = es.map (fun e => e.path) := by
  intro nid es
  induction es generalizing nid with
  | nil => rfl
  | cons e rest ih => simp [mkNewRecs, ih]

/-- Keys of the dedup dict after one loop iteration: unchanged when the path
was already a key, extended by the path otherwise. -/
theorem mergeStep_keys (d : List (String × FileView)) (f : FileView) :
    (mergeStep d f).map Prod.fst =
      if f.path ∈ d.map Prod.fst then d.map Prod.fst
      else d.map Prod.fst ++ [f.path] := by
  by_cases hmem : f.path ∈ d.map Prod.fst
  · have hany : d.any (fun e => e.1 == f.path) = true := (anyKey_iff d f.path).mpr hmem
    rw [if_pos hmem]
    unfold mergeStep
    rw [hany]
    by_cases hdb : (f.source == "database") = true
    · rw [hdb]
      simp only [Bool.not_true, Bool.false_or, if_true]
      unfold dictInsert
      rw [hany]
      simp only [if_true, List.map_map]
      refine List.map_congr_left ?_
      intro e _
      by_cases hek : (e.1 == f.path) = true
      · simp [hek, eq_of_beq hek]
      · have hne : e.1 ≠ f.path := by simpa using hek
        simp [hne]
    · simp [Bool.eq_false_iff.mpr hdb]
  · have hany : d.any (fun e => e.1 == f.path) = false := by
      rw [Bool.eq_false_iff]
      intro hc
      exact hmem ((anyKey_iff d f.path).mp hc)
    rw [if_neg hmem]
    unfold mergeStep dictInsert
    rw [hany]
    simp

/-- Keys accumulated by the dedup fold: the starting keys plus every path of
the processed views. -/
theorem foldl_mergeStep_mem_keys (views : List FileView) :
    ∀ (d : List (String × FileView)) (p : String),
      p ∈ (views.foldl mergeStep d).map Prod.fst ↔
        p ∈ d.map Prod.fst ∨ ∃ f ∈ views, f.path = p := by
  induction views with
  | nil => simp
  | cons f rest ih =>
    intro d p
    rw [List.foldl_cons, ih (mergeStep d f) p, mergeStep_keys]
    by_cases hmem : f.path ∈ d.map Prod.fst
    · rw [if_pos hmem]
      constructor
      · rintro (h | ⟨g, hg, hgp⟩)
        · exact Or.inl h
        · exact Or.inr ⟨g, List.mem_cons_of_mem f hg, hgp⟩
      · rintro (h | ⟨g, hg, hgp⟩)
        · exact Or.inl h
        · rcases List.mem_cons.mp hg with rfl | hg'
          · exact Or.inl (by rw [← hgp]; exact hmem)
          · exact Or.inr ⟨g, hg', hgp⟩
    · rw [if_neg hmem]
      rw [List.mem_append, List.mem_singleton]
      constructor
      · rintro ((h | h) | ⟨g, hg, hgp⟩)
        · exact Or.inl h
        · exact Or.inr ⟨f, List.mem_cons_self f rest, h.symm⟩
        · exact Or.inr ⟨g, List.mem_cons_of_mem f hg, hgp⟩
      · rintro (h | ⟨g, hg, hgp⟩)
        · exact Or.inl (Or.inl h)
        · rcases List.mem_cons.mp hg with rfl | hg'
          · exact Or.inl (Or.inr hgp.symm)
          · exact Or.inr ⟨g, hg', hgp⟩

/-- The dedup fold keeps its keys without duplicates. -/
theorem foldl_mergeStep_keys_nodup (views : List FileView) :
    ∀ (d : List (String × FileView)),
      (d.map Prod.fst).Nodup → ((views.foldl mergeStep d).map Prod.fst).Nodup := by
  induction views with
  | nil => intro d h; exact h
  | cons f rest ih =>
    intro d h
    rw [List.foldl_cons]
    refine ih (mergeStep d f) ?_
    rw [mergeStep_keys]
    by_cases hmem : f.path ∈ d.map Prod.fst
    · rw [if_pos hmem]; exact h
    · rw [if_neg hmem]
      rw [List.nodup_append]
      exact ⟨h, List.nodup_singleton _, by
        intro a ha hb
        rw [List.mem_singleton] at hb
        exact hmem (hb ▸ ha)⟩

/-- Every pair held by the dedup fold keys its view by its own path. -/
theorem foldl_mergeStep_path_eq (views : List FileView) :
    ∀ (d : List (String × FileView)),
      (∀ q v, (q, v) ∈ d → v.path = q) →
      ∀ q v, (q, v) ∈ views.foldl mergeStep d → v.path = q := by
  induction views with
  | nil => intro d h; exact h
  | cons f rest ih =>
    intro d h
    rw [List.foldl_cons]
    refine ih (mergeStep d f) ?_
    intro q v hqv
    unfold mergeStep at hqv
    by_cases hc : (!(d.any fun e => e.1 == f.path) || f.source == "database") = true
    · rw [if_pos hc] at hqv
      unfold dictInsert at hqv
      by_cases hany : (d.any fun e => e.1 == f.path) = true
      · rw [if_pos hany] at hqv
        obtain ⟨e, he, heq⟩ := List.mem_map.mp hqv
        by_cases hek : (e.1 == f.path) = true
        · rw [if_pos hek] at heq
          have h1 : f.path = q := congrArg Prod.fst heq
          have h2 : f = v := congrArg Prod.snd heq
          rw [← h1, ← h2]
        · rw [if_neg hek] at heq
          exact h q v (heq ▸ he)
      · rw [if_neg hany] at hqv
        rcases List.mem_append.mp hqv with hd | hs
        · exact h q v hd
        · rw [List.mem_singleton] at hs
          have h1 : f.path = q := congrArg Prod.fst hs.symm
          have h2 : f = v := congrArg Prod.snd hs.symm
          rw [← h1, ← h2]
    · rw [if_neg hc] at hqv
      exact h q v hqv

/-- Once the dedup dict holds a database-sourced view for a path, one loop
iteration keeps a database-sourced view there: a storage view never
overwrites (its path is already a key and its source fails the test), and a
database overwrite installs another database view. -/
theorem mergeStep_db_preserved (d : List (String × FileView)) (f : FileView)
    (p : String) (h : ∃ v, (p, v) ∈ d ∧ v.source = "database") :
    ∃ v, (p, v) ∈ mergeStep d f ∧ v.source = "database" := by
  obtain ⟨v, hv, hsrc⟩ := h
  unfold mergeStep
  by_cases hc : (!(d.any fun e => e.1 == f.path) || f.source == "database") = true
  · rw [if_pos hc]
    unfold dictInsert
    by_cases hany : (d.any fun e => e.1 == f.path) = true
    · rw [if_pos hany]
      by_cases hpf : (p == f.path) = true
      · have hpf' : p = f.path := eq_of_beq hpf
        have hfdb : (f.source == "database") = true := by
          rcases Bool.or_eq_true_iff.mp hc with hl | hr
          · exfalso
            rw [Bool.not_eq_true'] at hl
            have hx : (d.any fun e => e.1 == f.path) = true :=
              (anyKey_iff d f.path).mpr
                (List.mem_map.mpr ⟨(p, v), hv, hpf'⟩)
            rw [hl] at hx
            exact Bool.false_ne_true hx
          · exact hr
        refine ⟨f, ?_, eq_of_beq hfdb⟩
        have hm : (if ((p, v).1 == f.path) = true then (f.path, f) else (p, v)) ∈
            d.map (fun e => if e.1 == f.path then (f.path, f) else e) :=
          List.mem_map_of_mem _ hv
        rw [if_pos hpf] at hm
        rw [hpf']
        exact hm
      · refine ⟨v, ?_, hsrc⟩
        have hm : (if ((p, v).1 == f.path) = true then (f.path, f) else (p, v)) ∈
            d.map (fun e => if e.1 == f.path then (f.path, f) else e) :=
          List.mem_map_of_mem _ hv
        rw [if_neg hpf] at hm
        exact hm
    · rw [if_neg hany]
      exact ⟨v, List.mem_append_left _ hv, hsrc⟩
  · rw [if_neg hc]
    exact ⟨v, hv, hsrc⟩

/-- A database-sourced view held by the dict survives the whole remaining
fold. -/
theorem foldl_mergeStep_db_stays (views : List FileView) :
    ∀ (d : List (String × FileView)) (p : String),
      (∃ v, (p, v) ∈ d ∧ v.source = "database") →
      ∃ v, (p, v) ∈ views.foldl mergeStep d ∧ v.source = "database" := by
  induction views with
  | nil => intro d p h; exact h
  | cons g rest ih =>
    intro d p h
    rw [List.foldl_cons]
    exact ih (mergeStep d g) p (mergeStep_db_preserved d g p h)

/-- A database-sourced view somewhere in the input forces a database-sourced
view for its path in the dedup result. -/
theorem foldl_mergeStep_db_wins (views : List FileView) :
    ∀ (d : List (String × FileView)) (p : String),
      (∃ f ∈ views, f.path = p ∧ f.source = "database") →
      ∃ v, (p, v) ∈ views.foldl mergeStep d ∧ v.source = "database" := by
  induction views with
  | nil =>
    intro d p h
    exact absurd h (by simp)
  | cons g rest ih =>
    intro d p h
    rw [List.foldl_cons]
    rcases h with ⟨f, hf, hfp, hfdb⟩
    rcases List.mem_cons.mp hf with rfl | hf'
    · refine foldl_mergeStep_db_stays rest (mergeStep d f) p ?_
      unfold mergeStep
      have hc : (!(d.any fun e => e.1 == f.path) || f.source == "database") = true := by
        rw [Bool.or_eq_true_iff]
        exact Or.inr (by rw [hfdb]; rfl)
      rw [if_pos hc]
      unfold dictInsert
      by_cases hany : (d.any fun e => e.1 == f.path) = true
      · rw [if_pos hany]
        obtain ⟨e, he, hek⟩ := List.any_eq_true.mp hany
        refine ⟨f, ?_, hfdb⟩
        have hm : (if (e.1 == f.path) = true then (f.path, f) else e) ∈
            d.map (fun e => if e.1 == f.path then (f.path, f) else e) :=
          List.mem_map_of_mem _ he
        rw [if_pos hek] at hm
        rw [← hfp]
        exact hm
      · rw [if_neg hany]
        refine ⟨f, ?_, hfdb⟩
        rw [← hfp]
        exact List.mem_append_right _ (List.mem_singleton.mpr rfl)
    · exact ih (mergeStep d g) p ⟨f, hf', hfp, hfdb⟩

/-
Claim theorems.
-/

/-- C10: for every string s, a download request whose identifier is "temp_"
followed by s serves the file stored at STORAGE_DIR / s whenever that path
exists. The equation holds for every catalog (no registration check) and
download_file takes no user or activity input at all (no admin-gate check);
s is unconstrained, so traversal-shaped suffixes are served like any
other. -/
theorem temp_identifier_serves_any_path (storage : List StorEntry)
    (catalog : List FileRecord) (s : String) (e : StorEntry)
    (h : lookupStorage storage s = some e) :
    download_file storage catalog ("temp_" ++ s) =
      .file s (basename s) e.content := by
  unfold download_file
  rw [strStartsWith_append_self]
  simp only [if_true, strDrop_temp, h]

/-- Witness for C10 at a traversal-shaped suffix held by the store: the
temp identifier serves it with no gate or registration consulted. -/
theorem temp_identifier_serves_any_path_witness :
    lookupStorage [⟨"../secret", [42], 0⟩] "../secret" =
      some ⟨"../secret", [42], 0⟩ ∧
    download_file [⟨"../secret", [42], 0⟩] [] ("temp_" ++ "../secret") =
      .file "../secret" (basename "../secret") [42] :=
  ⟨by decide,
   temp_identifier_serves_any_path [⟨"../secret", [42], 0⟩] []
     "../secret" ⟨"../secret", [42], 0⟩ (by decide)⟩

/-- C6: an upload whose content exceeds MAX_FILE_SIZE is rejected with the
413 size-limit error before anything is written: the returned Content Store
and Metadata Catalog are exactly the input ones. -/
theorem upload_oversize_rejected (storage : List StorEntry)
    (catalog : List FileRecord) (filename : String) (content : List Nat)
    (uuidName : String) (ownerId nextId : Nat) (now : Int)
    (h : content.length > MAX_FILE_SIZE) :
    upload_file storage catalog filename content uuidName ownerId nextId now =
      ⟨storage, catalog, .err 413 "File too large. Max size: 100.0MB"⟩ := by
  simp [upload_file, h]

/-- Witness for C6: a 100 MiB + 1 byte upload is rejected unchanged. -/
theorem upload_oversize_rejected_witness :
    (List.replicate 104857601 (0 : Nat)).length > MAX_FILE_SIZE ∧
    upload_file [] [] "big.bin" (List.replicate 104857601 (0 : Nat)) "u1" 1 1 0 =
      ⟨[], [], .err 413 "File too large. Max size: 100.0MB"⟩ := by
  have h : (List.replicate 104857601 (0 : Nat)).length > MAX_FILE_SIZE := by
    rw [List.length_replicate]
    decide
  exact ⟨h, upload_oversize_rejected [] [] "big.bin" _ "u1" 1 1 0 h⟩

/-- C1: the temp-id round trip is broken in the code. With only a.txt in the
Content Store and the admin gate active, the listing hands out the id
generated as "temp_" plus the first 8 digest characters of the path
("temp_a5e54d1f"), but download strips "temp_" and uses the remaining 8
digest characters as a literal storage path, so downloading the very id the
listing returned answers 404 "File not found in storage" instead of serving
a.txt. -/
theorem temp_id_roundtrip_bug :
    generate_file_id "a.txt" = "temp_a5e54d1f" ∧
    unique_files (all_files [⟨"a.txt", [97], 7⟩] []
        (is_admin_active [⟨"root", "admin", some 100⟩] 100)) =
      [("a.txt",
        { id := .tempId "temp_a5e54d1f", name := "a.txt", path := "a.txt",
          size := 1, modified := 7, owner_id := none, source := "storage" })] ∧
    download_file [⟨"a.txt", [97], 7⟩] [] (generate_file_id "a.txt") =
      .err 404 "File not found in storage" := by
  decide

/-- C9: the archive loop does not resolve catalog ids the way download does.
For the same state, download of catalog id "1" serves a.txt, while the
multi-download endpoint reaches db.get with the raw string "1" against the
Integer primary key (raising under the configured asyncpg engine) and the
whole request fails with 500 "Archive creation failed" instead of a
best-effort archive. -/
theorem archive_unparsed_catalog_id_bug :
    download_multiple_files [⟨"a.txt", [97], 0⟩]
        [⟨1, "a.txt", "a.txt", 1, 0, some "aa", 1⟩] ["1"] =
      .err 500 "Archive creation failed" ∧
    download_file [⟨"a.txt", [97], 0⟩]
        [⟨1, "a.txt", "a.txt", 1, 0, some "aa", 1⟩] "1" =
      .file "a.txt" "a.txt" [97] := by
  decide

/-- C5: downloading a catalog id whose row exists but whose backing file is
absent returns the dedicated 404 "File exists in database but missing in
storage", and this error differs from the plain 404 "File not found in
database" returned when the row itself is absent. -/
theorem download_inconsistency_distinct (storage : List StorEntry)
    (catalog : List FileRecord) (fid fid2 : String) (n m : Int) (r : FileRecord)
    (h1 : strStartsWith fid "temp_" = false)
    (h2 : parsePyInt fid = some n)
    (h3 : catalog.find? (fun rr => (rr.id : Int) == n) = some r)
    (h4 : lookupStorage storage r.path = none)
    (g1 : strStartsWith fid2 "temp_" = false)
    (g2 : parsePyInt fid2 = some m)
    (g3 : catalog.find? (fun rr => (rr.id : Int) == m) = none) :
    download_file storage catalog fid =
      .err 404 "File exists in database but missing in storage" ∧
    download_file storage catalog fid2 =
      .err 404 "File not found in database" ∧
    DlResult.err 404 "File exists in database but missing in storage" ≠
      DlResult.err 404 "File not found in database" := by
  refine ⟨?_, ?_, by decide⟩
  · simp [download_file, h1, h2, h3, h4]
  · simp [download_file, g1, g2, g3]

/-- Witness for C5: a catalog with row 1 for a.txt over an empty store. -/
theorem download_inconsistency_distinct_witness :
    (strStartsWith "1" "temp_" = false ∧
     parsePyInt "1" = some 1 ∧
     [(⟨1, "a.txt", "a.txt", 1, 0, some "aa", 1⟩ : FileRecord)].find?
       (fun rr => (rr.id : Int) == 1) =
         some ⟨1, "a.txt", "a.txt", 1, 0, some "aa", 1⟩ ∧
     lookupStorage [] (FileRecord.path ⟨1, "a.txt", "a.txt", 1, 0, some "aa", 1⟩) =
       none ∧
     strStartsWith "2" "temp_" = false ∧
     parsePyInt "2" = some 2 ∧
     [(⟨1, "a.txt", "a.txt", 1, 0, some "aa", 1⟩ : FileRecord)].find?
       (fun rr => (rr.id : Int) == 2) = none) ∧
    (download_file [] [⟨1, "a.txt", "a.txt", 1, 0, some "aa", 1⟩] "1" =
       .err 404 "File exists in database but missing in storage" ∧
     download_file [] [⟨1, "a.txt", "a.txt", 1, 0, some "aa", 1⟩] "2" =
       .err 404 "File not found in database" ∧
     DlResult.err 404 "File exists in database but missing in storage" ≠
       DlResult.err 404 "File not found in database") :=
  ⟨by decide,
   download_inconsistency_distinct [] [⟨1, "a.txt", "a.txt", 1, 0, some "aa", 1⟩]
     "1" "2" 1 2 ⟨1, "a.txt", "a.txt", 1, 0, some "aa", 1⟩
     (by decide) (by decide) (by decide) (by decide)
     (by decide) (by decide) (by decide)⟩

/-- C2 counterexample: from an empty user table, a single admin registration
(no login anywhere) already makes the gate report an active admin, because
register sets last_active for role "admin" at creation time. -/
theorem admin_gate_without_login :
    register [] "root" "admin" "qwerty" 1000 =
      .ok [⟨"root", "admin", some 1000⟩] ∧
    is_admin_active [⟨"root", "admin", some 1000⟩] 1000 = true := by
  decide

/-- C2 (amended): is_admin_active is true exactly when some user row has
role "admin" and a non-null last_active within the 5-minute window before
now; but last_active is not set only by login: registering an admin account
sets it to the creation time, so a freshly registered admin activates the
gate without ever logging in. -/
theorem is_admin_active_characterization :
    (∀ (users : List User) (now : Int),
      is_admin_active users now = true ↔
        ∃ u ∈ users, u.role = "admin" ∧
          ∃ t, u.last_active = some t ∧ now - ADMIN_ACTIVITY_TIMEOUT ≤ t) ∧
    (∀ (uname : String) (now : Int),
      register [] uname "admin" ADMIN_SECRET_KEY now =
        .ok [⟨uname, "admin", some now⟩] ∧
      is_admin_active [⟨uname, "admin", some now⟩] now = true) := by
  constructor
  · intro users now
    rw [is_admin_active, List.any_eq_true]
    constructor
    · rintro ⟨u, hu, hb⟩
      rw [Bool.and_eq_true] at hb
      obtain ⟨hrole, hact⟩ := hb
      refine ⟨u, hu, eq_of_beq hrole, ?_⟩
      cases hla : u.last_active with
      | none =>
        rw [hla] at hact
        exact absurd hact Bool.false_ne_true
      | some t =>
        rw [hla] at hact
        exact ⟨t, rfl, of_decide_eq_true hact⟩
    · rintro ⟨u, hu, hrole, t, hla, hle⟩
      refine ⟨u, hu, ?_⟩
      rw [Bool.and_eq_true]
      refine ⟨by rw [hrole]; rfl, ?_⟩
      rw [hla]
      exact decide_eq_true hle
  · intro uname now
    constructor
    · rfl
    · rw [is_admin_active]
      simp only [List.any_cons, List.any_nil, Bool.or_false]
      rw [Bool.and_eq_true]
      refine ⟨rfl, ?_⟩
      refine decide_eq_true ?_
      unfold ADMIN_ACTIVITY_TIMEOUT
      omega

/-- C7: register_all registers exactly the storage files whose paths are not
yet registered (first conjunct), and an immediate second run over the
resulting catalog registers nothing. -/
theorem register_all_idempotent (storage : List StorEntry)
    (catalog : List FileRecord) (uid nid uid2 nid2 : Nat) :
    (register_all_files storage catalog uid nid).2 =
      (storage.filter (fun e =>
        !((catalog.map (fun r => r.path)).contains e.path))).map
          (fun e => e.path) ∧
    (register_all_files storage
        (register_all_files storage catalog uid nid).1 uid2 nid2).2 = [] := by
  refine ⟨rfl, ?_⟩
  have hc1 : (register_all_files storage catalog uid nid).1 =
      catalog ++ mkNewRecs uid nid (storage.filter (fun e =>
        !((catalog.map (fun r => r.path)).contains e.path))) := rfl
  have hcontains : ∀ e ∈ storage,
      (((register_all_files storage catalog uid nid).1.map
        (fun r => r.path)).contains e.path) = true := by
    intro e he
    rw [hc1, List.map_append, mkNewRecs_map_path]
    by_cases hc : ((catalog.map (fun r => r.path)).contains e.path) = true
    · exact List.elem_iff.mpr (List.mem_append_left _ (List.elem_iff.mp hc))
    · refine List.elem_iff.mpr (List.mem_append_right _ ?_)
      refine List.mem_map.mpr ⟨e, ?_, rfl⟩
      refine List.mem_filter.mpr ⟨he, ?_⟩
      rw [Bool.eq_false_iff.mpr hc]
      rfl
  have hfil : storage.filter (fun e =>
      !(((register_all_files storage catalog uid nid).1.map
        (fun r => r.path)).contains e.path)) = [] := by
    rw [List.filter_eq_nil_iff]
    intro e he hpred
    rw [hcontains e he] at hpred
    exact Bool.false_ne_true hpred
  show ((storage.filter _).map _) = []
  rw [hfil]
  rfl

/-- C8: syncing a path that has no catalog row writes the blob once and
inserts one row (status added); an immediately repeated sync with the same
path, hash and size finds the row matching and returns skipped while leaving
both the Content Store and the Metadata Catalog exactly as the first call
left them. -/
theorem sync_one_added_then_skipped (storage : List StorEntry)
    (catalog : List FileRecord) (filename filename2 path hashv : String)
    (size : Nat) (modifiedv modifiedv2 : Int) (content content2 : List Nat)
    (uid nid uid2 nid2 : Nat) (now now2 : Int)
    (h : catalog.find? (fun r => r.path == path) = none) :
    sync_file storage catalog filename path hashv size modifiedv content
        uid nid now =
      ⟨storageWrite storage path content now,
       catalog ++ [{ id := nid, filename := filename, path := path,
                     size := size, modified := modifiedv,
                     hash := some hashv, owner_id := uid }],
       .added⟩ ∧
    sync_file (storageWrite storage path content now)
        (catalog ++ [{ id := nid, filename := filename, path := path,
                       size := size, modified := modifiedv,
                       hash := some hashv, owner_id := uid }])
        filename2 path hashv size modifiedv2 content2 uid2 nid2 now2 =
      ⟨storageWrite storage path content now,
       catalog ++ [{ id := nid, filename := filename, path := path,
                     size := size, modified := modifiedv,
                     hash := some hashv, owner_id := uid }],
       .skipped⟩ := by
  constructor
  · rw [sync_file, h]
  · have hfind : (catalog ++
        [({ id := nid, filename := filename, path := path,
            size := size, modified := modifiedv, hash := some hashv,
            owner_id := uid } : FileRecord)]).find? (fun r => r.path == path) =
        some { id := nid, filename := filename, path := path, size := size,
               modified := modifiedv, hash := some hashv, owner_id := uid } := by
      rw [List.find?_append, h]
      simp [List.find?]
    rw [sync_file, hfind]
    simp

/-- Witness for C8 over an empty store and catalog. -/
theorem sync_one_added_then_skipped_witness :
    ([] : List FileRecord).find? (fun r => r.path == "a.txt") = none ∧
    (sync_file [] [] "a.txt" "a.txt" "aa" 1 5 [97] 1 1 6 =
      ⟨storageWrite [] "a.txt" [97] 6,
       [] ++ [{ id := 1, filename := "a.txt", path := "a.txt", size := 1,
                modified := 5, hash := some "aa", owner_id := 1 }],
       .added⟩ ∧
     sync_file (storageWrite [] "a.txt" [97] 6)
        ([] ++ [{ id := 1, filename := "a.txt", path := "a.txt", size := 1,
                  modified := 5, hash := some "aa", owner_id := 1 }])
        "b.txt" "a.txt" "aa" 1 9 [98] 2 2 10 =
      ⟨storageWrite [] "a.txt" [97] 6,
       [] ++ [{ id := 1, filename := "a.txt", path := "a.txt", size := 1,
                modified := 5, hash := some "aa", owner_id := 1 }],
       .skipped⟩) :=
  ⟨by decide,
   sync_one_added_then_skipped [] [] "a.txt" "b.txt" "a.txt" "aa" 1 5 9
     [97] [98] 1 1 2 2 6 10 (by decide)⟩

/-- C4: the deduplicated merged listing keys its views by path without
duplicates, every held view is the view of its own key, a path appears among
the keys exactly when some input view carries it, and a path carried by both
a catalog row (with existing backing file) and the store ends up with the
catalog-backed (source "database") view. -/
theorem merged_listing_unique_catalog_wins (storage : List StorEntry)
    (catalog : List FileRecord) (adminActive : Bool) (p : String)
    (r : FileRecord) (e : StorEntry)
    (hr : r ∈ catalog) (hrp : r.path = p)
    (he : lookupStorage storage p = some e) :
    (((unique_files (all_files storage catalog adminActive)).map
        Prod.fst).Nodup) ∧
    (∀ q v, (q, v) ∈ unique_files (all_files storage catalog adminActive) →
      v.path = q) ∧
    (∀ q, q ∈ (unique_files (all_files storage catalog adminActive)).map
        Prod.fst ↔
      ∃ f ∈ all_files storage catalog adminActive, f.path = q) ∧
    (∃ v, (p, v) ∈ unique_files (all_files storage catalog adminActive) ∧
      v.source = "database") := by
  refine ⟨?_, ?_, ?_, ?_⟩
  · exact foldl_mergeStep_keys_nodup _ [] (by simp)
  · exact foldl_mergeStep_path_eq _ [] (by simp)
  · intro q
    unfold unique_files
    rw [foldl_mergeStep_mem_keys]
    simp
  · have hdv : dbView storage r = some
        { id := .dbId r.id, name := r.filename, path := r.path,
          size := e.content.length, modified := e.mtime,
          owner_id := some r.owner_id, source := "database" } := by
      unfold dbView
      rw [hrp, he]
    refine foldl_mergeStep_db_wins _ [] p
      ⟨{ id := .dbId r.id, name := r.filename, path := r.path,
         size := e.content.length, modified := e.mtime,
         owner_id := some r.owner_id, source := "database" }, ?_, hrp, rfl⟩
    unfold all_files
    exact List.mem_append_right _ (List.mem_filterMap.mpr ⟨r, hr, hdv⟩)

/-- Witness for C4: one storage file a.txt also registered as row 5. -/
theorem merged_listing_unique_catalog_wins_witness :
    ((⟨5, "display", "a.txt", 1, 2, some "aa", 9⟩ : FileRecord) ∈
       [(⟨5, "display", "a.txt", 1, 2, some "aa", 9⟩ : FileRecord)] ∧
     FileRecord.path ⟨5, "display", "a.txt", 1, 2, some "aa", 9⟩ = "a.txt" ∧
     lookupStorage [⟨"a.txt", [97], 3⟩] "a.txt" = some ⟨"a.txt", [97], 3⟩) ∧
    ((((unique_files (all_files [⟨"a.txt", [97], 3⟩]
        [⟨5, "display", "a.txt", 1, 2, some "aa", 9⟩] true)).map
          Prod.fst).Nodup) ∧
     (∀ q v, (q, v) ∈ unique_files (all_files [⟨"a.txt", [97], 3⟩]
        [⟨5, "display", "a.txt", 1, 2, some "aa", 9⟩] true) → v.path = q) ∧
     (∀ q, q ∈ (unique_files (all_files [⟨"a.txt", [97], 3⟩]
        [⟨5, "display", "a.txt", 1, 2, some "aa", 9⟩] true)).map Prod.fst ↔
       ∃ f ∈ all_files [⟨"a.txt", [97], 3⟩]
         [⟨5, "display", "a.txt", 1, 2, some "aa", 9⟩] true, f.path = q) ∧
     (∃ v, (("a.txt", v) ∈ unique_files (all_files [⟨"a.txt", [97], 3⟩]
        [⟨5, "display", "a.txt", 1, 2, some "aa", 9⟩] true)) ∧
       v.source = "database")) :=
  ⟨⟨by decide, by decide, by decide⟩,
   merged_listing_unique_catalog_wins [⟨"a.txt", [97], 3⟩]
     [⟨5, "display", "a.txt", 1, 2, some "aa", 9⟩] true "a.txt"
     ⟨5, "display", "a.txt", 1, 2, some "aa", 9⟩ ⟨"a.txt", [97], 3⟩
     (by decide) (by decide) (by decide)⟩

/-- C3 counterexample: the files table declares no uniqueness constraint on
path — `path = Column(String)` carries no unique flag — while the user table
shows what a declared constraint looks like (username). The claimed
catalog-level safety net does not exist in the schema. -/
theorem path_column_has_no_unique_constraint :
    fileModelPathColumn.unique = false ∧ userUsernameColumn.unique = true := by
  decide

/-- C3 (amended): path-uniqueness of the catalog is maintained only by the
per-operation existence pre-checks, not by a schema constraint: register,
register-all and sync each preserve it in sequential execution, and
registering a path that already has a row (and still has a backing file) is
rejected with the 400 "File already registered" conflict error, leaving the
catalog unchanged. -/
theorem path_uniqueness_app_level (storage : List StorEntry)
    (catalog : List FileRecord) (p : String) (fno : Option String)
    (filename path2 hashv : String) (size : Nat) (modifiedv : Int)
    (content : List Nat) (uid nid : Nat) (now : Int)
    (hcat : (catalog.map (fun r => r.path)).Nodup)
    (hstore : (storage.map (fun e => e.path)).Nodup) :
    (((register_file storage catalog p fno uid nid).catalog.map
        (fun r => r.path)).Nodup) ∧
    (∀ e', lookupStorage storage p = some e' →
      p ∈ catalog.map (fun r => r.path) →
      register_file storage catalog p fno uid nid =
        ⟨catalog, .err 400 "File already registered"⟩) ∧
    (((register_all_files storage catalog uid nid).1.map
        (fun r => r.path)).Nodup) ∧
    (((sync_file storage catalog filename path2 hashv size modifiedv content
        uid nid now).catalog.map (fun r => r.path)).Nodup) := by
  refine ⟨?_, ?_, ?_, ?_⟩
  · unfold register_file
    cases hls : lookupStorage storage p with
    | none => exact hcat
    | some e =>
      cases hf : catalog.find? (fun r => r.path == p) with
      | some r => exact hcat
      | none =>
        simp only [List.map_append]
        rw [List.nodup_append]
        refine ⟨hcat, by simp, ?_⟩
        intro a ha hb
        simp only [List.map_cons, List.map_nil, List.mem_singleton] at hb
        rw [hb] at ha
        exact (find?_path_eq_none catalog p).mp hf ha
  · intro e' hls hmem
    unfold register_file
    rw [hls]
    cases hf : catalog.find? (fun r => r.path == p) with
    | some r => rfl
    | none => exact absurd hmem ((find?_path_eq_none catalog p).mp hf)
  · unfold register_all_files
    simp only [List.map_append]
    rw [List.nodup_append, mkNewRecs_map_path]
    refine ⟨hcat, ?_, ?_⟩
    · exact hstore.sublist ((List.filter_sublist storage).map (fun e => e.path))
    · intro a ha hb
      obtain ⟨e, he, hep⟩ := List.mem_map.mp hb
      obtain ⟨_, hpred⟩ := List.mem_filter.mp he
      rw [Bool.not_eq_true'] at hpred
      rw [← hep] at ha
      exact Bool.false_ne_true
        (hpred ▸ List.elem_iff.mpr ha : (false = true))
  · unfold sync_file
    cases hf : catalog.find? (fun r => r.path == path2) with
    | none =>
      simp only [List.map_append]
      rw [List.nodup_append]
      refine ⟨hcat, by simp, ?_⟩
      intro a ha hb
      simp only [List.map_cons, List.map_nil, List.mem_singleton] at hb
      rw [hb] at ha
      exact (find?_path_eq_none catalog path2).mp hf ha
    | some ex =>
      dsimp only
      by_cases hch : (ex.hash != some hashv || ex.size != size) = true
      · rw [if_pos hch]
        simp only [List.map_map]
        have hmap : catalog.map ((fun r => r.path) ∘ (fun r =>
            if r.id == ex.id then
              { r with size := size, hash := some hashv, modified := modifiedv }
            else r)) = catalog.map (fun r => r.path) := by
          refine List.map_congr_left ?_
          intro r _
          by_cases hid : (r.id == ex.id) = true
          · simp [Function.comp, hid]
          · simp [Function.comp, hid]
        rw [hmap]
        exact hcat
      · rw [if_neg hch]
        exact hcat

/-- Witness for C3 (amended) on a one-file store with its row registered. -/
theorem path_uniqueness_app_level_witness :
    (([(⟨1, "a.txt", "a.txt", 1, 0, some "aa", 1⟩ : FileRecord)].map
        (fun r => r.path)).Nodup ∧
     ([(⟨"a.txt", [97], 0⟩ : StorEntry)].map (fun e => e.path)).Nodup) ∧
    ((((register_file [⟨"a.txt", [97], 0⟩]
        [⟨1, "a.txt", "a.txt", 1, 0, some "aa", 1⟩] "a.txt" none 1 2).catalog.map
          (fun r => r.path)).Nodup) ∧
     (∀ e', lookupStorage [⟨"a.txt", [97], 0⟩] "a.txt" = some e' →
       "a.txt" ∈ [(⟨1, "a.txt", "a.txt", 1, 0, some "aa", 1⟩ : FileRecord)].map
         (fun r => r.path) →
       register_file [⟨"a.txt", [97], 0⟩]
         [⟨1, "a.txt", "a.txt", 1, 0, some "aa", 1⟩] "a.txt" none 1 2 =
         ⟨[⟨1, "a.txt", "a.txt", 1, 0, some "aa", 1⟩],
          .err 400 "File already registered"⟩) ∧
     (((register_all_files [⟨"a.txt", [97], 0⟩]
        [⟨1, "a.txt", "a.txt", 1, 0, some "aa", 1⟩] 1 2).1.map
          (fun r => r.path)).Nodup) ∧
     (((sync_file [⟨"a.txt", [97], 0⟩]
        [⟨1, "a.txt", "a.txt", 1, 0, some "aa", 1⟩] "b" "b.txt" "bb" 2 3
          [98, 99] 1 2 4).catalog.map (fun r => r.path)).Nodup)) :=
  ⟨⟨by decide, by decide⟩,
   path_uniqueness_app_level [⟨"a.txt", [97], 0⟩]
     [⟨1, "a.txt", "a.txt", 1, 0, some "aa", 1⟩] "a.txt" none "b" "b.txt" "bb"
     2 3 [98, 99] 1 2 4 (by decide) (by decide)⟩
